import Mathlib

/-!
Verification development for the `shadowproxy` reverse HTTP/WebSocket proxy
(file `src/shadowproxy/main.py`, class `ShadowServer`).

The development is a shallow embedding of the forwarding engine:

* header mappings are ordered association lists of (name, value) pairs,
  mirroring the containers used by the source: the inbound and upstream
  header containers are `multidict.CIMultiDict` (case-insensitive lookup,
  original key casing preserved, duplicates allowed, insertion order kept),
  the outbound request mapping built by `prepare_headers` is a plain Python
  `dict` (case-sensitive keys, duplicate assignment keeps the first position
  and the last value), and the response mapping built by `build_response` is
  a `multidict.MultiDict` (case-sensitive keys, duplicates allowed;
  assignment replaces the first entry with an equal key and drops the
  remaining equal-key entries, or appends when the key is absent);
* bodies are byte sequences, modelled as lists of naturals;
* fallible operations return `Except`;
* the WebSocket relay loops are modelled over the list of messages the
  aiohttp message iterator delivers to the loop body.  Per aiohttp, the
  iterator of both `ClientWebSocketResponse` and `web.WebSocketResponse`
  ends iteration (raises `StopAsyncIteration`) as soon as `receive` returns
  a message of type CLOSE, CLOSING or CLOSED, so such messages never reach
  the body of the `async for` loop.
-/

namespace ShadowProxy

/-- A header mapping: ordered (name, value) pairs. -/
abbrev Headers := List (String × String)

/-- Bytes of an ASCII string, as the Python `str.encode` of the literals
appearing in the source. -/
def strBytes (s : String) : List Nat :=
  s.data.map Char.toNat

/-- The Python `str.lower` on the ASCII header names and values this code
compares, written over the character list so that it evaluates by kernel
reduction (`Char.toLower` lowers exactly the ASCII uppercase range). -/
def lowerStr (s : String) : String :=
  String.mk (s.data.map Char.toLower)

/-- Case-insensitive lookup of the first matching entry, as
`CIMultiDict.get` (the aiohttp request and response header containers). -/
def ciGet (h : Headers) (k : String) : Option String :=
  (h.find? (fun kv => lowerStr kv.1 == lowerStr k)).map (fun kv => kv.2)

/-- Case-sensitive lookup of the first matching entry, as lookup in a plain
Python `dict` or a `multidict.MultiDict`. -/
def csGet (h : Headers) (k : String) : Option String :=
  (h.find? (fun kv => kv.1 == k)).map (fun kv => kv.2)

/-- Case-sensitive key membership, as `k in d` for a `multidict.MultiDict`
(the case-sensitive variant; `CIMultiDict` is the case-insensitive one). -/
def hasKeyCS (h : Headers) (k : String) : Bool :=
  h.any (fun kv => kv.1 == k)

/-- Assignment `d[k] = v` on a `multidict.MultiDict`: replace the first
entry whose key equals `k` (case-sensitively) and drop the remaining
entries with that key, or append when no entry has key `k`. -/
def mdSet : Headers → String → String → Headers
  | [], k, v => [(k, v)]
  | kv :: rest, k, v =>
    if kv.1 == k then (k, v) :: rest.filter (fun kv2 => kv2.1 != k)
    else kv :: mdSet rest k v

/-- Assignment `d[k] = v` on a plain Python `dict`: an existing key keeps
its position (and its original key object) and receives the new value,
otherwise the pair is appended.  A Python `dict` holds at most one entry
per key, so updating the first matching entry is updating the only one. -/
def pyDictInsert : Headers → String → String → Headers
  | [], k, v => [(k, v)]
  | kv :: rest, k, v =>
    if kv.1 == k then (kv.1, v) :: rest
    else kv :: pyDictInsert rest k v

/-- A Python `dict` comprehension over an ordered pair sequence: entries are
inserted left to right, so a repeated key keeps its first position and its
last value. -/
def pyDictOfList (l : Headers) : Headers :=
  l.foldl (fun d kv => pyDictInsert d kv.1 kv.2) []

/-- Characters the Python `urllib.parse.urlsplit` accepts inside a URL
scheme. -/
def isSchemeChar (c : Char) : Bool :=
  c.isAlphanum || c == '+' || c == '-' || c == '.'

/-- The scheme-stripping step of `urllib.parse.urlsplit`: when the text up
to the first colon is a well-formed scheme (nonempty, leading ASCII letter,
scheme characters only), everything after that colon remains. -/
def dropScheme (cs : List Char) : List Char :=
  match cs.findIdx? (fun c => c == ':') with
  | some i =>
    if 0 < i ∧ (cs.headD ' ').isAlpha ∧ (cs.take i).all isSchemeChar then
      cs.drop (i + 1)
    else cs
  | none => cs

/-- The netloc-extraction step of `urllib.parse.urlsplit`: when the
remainder starts with a double slash, the netloc runs up to the next
slash, question mark or hash; otherwise it is empty. -/
def netlocChars : List Char → List Char
  | '/' :: '/' :: rest =>
    rest.takeWhile (fun c => !(c == '/' || c == '?' || c == '#'))
  | _ => []

/-- The `netloc` component of `urllib.parse.urlsplit` of a URL, as used by
`prepare_headers` on the configured base URL. -/
def urlsplitNetloc (url : String) : String :=
  String.mk (netlocChars (dropScheme url.data))

/-- An upstream response as consumed by `build_response`: status, the
`CIMultiDict` of headers as parsed off the wire (original key casing
preserved), and the fully buffered body bytes. -/
structure UpstreamResp where
  status : Nat
  headers : Headers
  body : List Nat
deriving Repr, DecidableEq

/-- A client-facing `web.Response`: status, header mapping, body bytes. -/
structure ClientResp where
  status : Nat
  headers : Headers
  body : List Nat
deriving Repr, DecidableEq

/-- Transport-level upstream failure classes named by the specification. -/
inductive UpstreamFailure
  | connectRefused
  | totalTimeout
  | protocolError
deriving Repr, DecidableEq

/-- Whether the exception raised for a failure class is an instance of
`aiohttp.ClientError`, the class caught by `handle_request`.  A refused
connection raises `aiohttp.ClientConnectorError` and a protocol violation
raises `aiohttp.ClientPayloadError` / `aiohttp.ClientResponseError`, all
subclasses of `ClientError`.  Expiry of the overall `ClientTimeout(total=...)`
budget configured in `init_session` raises `asyncio.TimeoutError` from the
aiohttp timer context, which is not a subclass of `ClientError`. -/
def isClientError : UpstreamFailure → Bool
  | .connectRefused => true
  | .totalTimeout => false
  | .protocolError => true

/-- Filtering step of `build_response`: drop every header whose name is
`transfer-encoding` up to case. -/
def filterTE (h : Headers) : Headers :=
  h.filter (fun kv => lowerStr kv.1 != "transfer-encoding")

/-- The method `is_response_chunked`: case-insensitive lookup of
`Transfer-Encoding` in the upstream headers, defaulting to the empty
string, lower-cased and compared with `chunked`. -/
def is_response_chunked (r : UpstreamResp) : Bool :=
  lowerStr ((ciGet (r.headers) "Transfer-Encoding").getD "") == "chunked"

/-- The injected `Content-Length` value: `str(len(body))`. -/
def clValue (r : UpstreamResp) : String :=
  toString r.body.length

/-- The method `build_response`: rebuild the headers into a fresh
case-sensitive `MultiDict` without `Transfer-Encoding` entries; when the
title-cased key `Content-Length` is absent from that mapping (a
case-sensitive membership test) and the upstream response is not chunked,
assign the body length under the key `Content-Length` and then under the
key `content-length`; return the buffered body with the upstream status. -/
def build_response (r : UpstreamResp) : ClientResp :=
  { status := r.status
    headers :=
      if hasKeyCS (filterTE r.headers) "Content-Length" = false ∧ is_response_chunked r = false then
        mdSet (mdSet (filterTE r.headers) "Content-Length" (clValue r)) "content-length" (clValue r)
      else filterTE r.headers
    body := r.body }

/-- The response synthesized by the `except ClientError` arm of
`handle_request`: `web.Response(status=502, text="Bad Gateway")` (aiohttp
attaches the plain-text content type for a text response). -/
def badGatewayResp : ClientResp :=
  { status := 502
    headers := [("Content-Type", "text/plain; charset=utf-8")]
    body := strBytes "Bad Gateway" }

/-- The non-upgraded path of `handle_request`, abstracted over the outcome
of the upstream request: a successful upstream response is passed to
`build_response`; a raised failure is mapped to the 502 response when it is
an `aiohttp.ClientError` and propagates out of the handler otherwise. -/
def handle_request (outcome : Except UpstreamFailure UpstreamResp) :
    Except UpstreamFailure ClientResp :=
  match outcome with
  | .ok r => .ok (build_response r)
  | .error e => if isClientError e then .ok badGatewayResp else .error e

/-- The method `construct_target_url`: base URL, one slash, the matched
path (possibly empty), and the raw query string after a question mark when
it is non-empty. -/
def construct_target_url (base path query : String) : String :=
  let t := base ++ "/" ++ path
  if query = "" then t else t ++ "?" ++ query

/-- The method `prepare_headers`: a `dict` comprehension copying every
inbound header whose lower-cased name is not `host`, then the assignment
`headers["Host"] = urlsplit(self.target_base_url).netloc`. -/
def prepare_headers (base : String) (reqHeaders : Headers) : Headers :=
  pyDictInsert
    (pyDictOfList (reqHeaders.filter (fun kv => lowerStr kv.1 != "host")))
    "Host" (urlsplitNetloc base)

/-- Message types of `aiohttp.WSMsgType` relevant to the relay. -/
inductive WSMsgType
  | text
  | binary
  | ping
  | pong
  | close
  | closing
  | closed
  | error
deriving Repr, DecidableEq

/-- A WebSocket message as yielded by the aiohttp iterator. -/
structure WSMessage where
  type : WSMsgType
  data : String
deriving Repr, DecidableEq

/-- Observable effects a forwarding loop performs on the peer socket. -/
inductive RelayAction
  | sendStr (s : String)
  | sendBytes (s : String)
  | closePeer
deriving Repr, DecidableEq

/-- Message types on which the aiohttp WebSocket iterator raises
`StopAsyncIteration` instead of yielding the message to the loop body. -/
def stopsIteration : WSMsgType → Bool
  | .close => true
  | .closing => true
  | .closed => true
  | _ => false

/-- The body of the `forward` loop in `handle_websocket`: a TEXT frame is
re-sent as text, a BINARY frame as bytes, a CLOSE message closes the peer
socket, anything else falls through the if/elif chain. -/
def bodyActions (m : WSMessage) : List RelayAction :=
  match m.type with
  | .text => [.sendStr m.data]
  | .binary => [.sendBytes m.data]
  | .close => [.closePeer]
  | _ => []

/-- One `forward(ws_from, ws_to)` loop of `handle_websocket`, run over the
list of messages successively returned by `receive` on the reading socket:
iteration ends at the first CLOSE / CLOSING / CLOSED message, every other
message is handed to the loop body. -/
def forwardLoop : List WSMessage → List RelayAction
  | [] => []
  | m :: rest =>
    if stopsIteration m.type then []
    else bodyActions m ++ forwardLoop rest

/-- Whether a list of relay actions closes the peer socket. -/
def closesPeer : List RelayAction → Bool
  | [] => false
  | .closePeer :: _ => true
  | _ :: rest => closesPeer rest

/-- A `forward` loop whose sends may fail: `sendFails i` tells whether the
i-th send on the peer socket raises (for example because that socket is
already closing).  A raised send propagates out of the loop as an
exception; nothing in `forward` catches it. -/
def forwardRun (sendFails : Nat → Bool) : List WSMessage → Nat → Except Unit (List RelayAction)
  | [], _ => .ok []
  | m :: rest, k =>
    if stopsIteration m.type then .ok []
    else if (bodyActions m).isEmpty then forwardRun sendFails rest k
    else if sendFails k then .error ()
    else (forwardRun sendFails rest (k + 1)).map (fun tail => bodyActions m ++ tail)

/-- The semantics of `asyncio.gather` with the default
`return_exceptions=False`, as used by `handle_websocket`: an exception
raised by either awaited coroutine propagates out of the gather. -/
def gather2 (a b : Except Unit (List RelayAction)) :
    Except Unit (List RelayAction × List RelayAction) :=
  match a, b with
  | .ok x, .ok y => .ok (x, y)
  | .error e, _ => .error e
  | .ok _, .error e => .error e

/-- The relay phase of `handle_websocket` after both handshakes: gather the
upstream-to-client loop and the client-to-upstream loop.  `upstreamMsgs`
and `clientMsgs` are the messages each loop reads; the two predicates tell
which sends on the respective destination socket fail. -/
def handle_websocket (upstreamMsgs clientMsgs : List WSMessage)
    (sendToClientFails sendToUpstreamFails : Nat → Bool) :
    Except Unit (List RelayAction × List RelayAction) :=
  gather2 (forwardRun sendToClientFails upstreamMsgs 0)
    (forwardRun sendToUpstreamFails clientMsgs 0)

/-! ### Helper lemmas about the header-container model -/

theorem find?_filter_of_imp (l : Headers) (p q : String × String → Bool)
    (h : ∀ a, p a = true → q a = true) :
    (l.filter q).find? p = l.find? p := by
  induction l with
  | nil => rfl
  | cons a t ih =>
    by_cases hq : q a = true
    · rw [List.filter_cons_of_pos hq]
      by_cases hp : p a = true
      · rw [List.find?_cons_of_pos _ hp, List.find?_cons_of_pos _ hp]
      · have hp2 : ¬ p a := by simp [hp]
        rw [List.find?_cons_of_neg _ hp2, List.find?_cons_of_neg _ hp2, ih]
    · have hp2 : ¬ p a := by
        intro hpa
        exact hq (h a hpa)
      rw [List.filter_cons_of_neg (by simpa using hq), List.find?_cons_of_neg _ hp2, ih]

theorem mdSet_cons_pos (a : String × String) (t : Headers) (k v : String) (h : a.1 = k) :
    mdSet (a :: t) k v = (k, v) :: t.filter (fun kv2 => kv2.1 != k) := by
  rw [mdSet, if_pos]
  simp [h]

theorem mdSet_cons_neg (a : String × String) (t : Headers) (k v : String) (h : ¬ a.1 = k) :
    mdSet (a :: t) k v = a :: mdSet t k v := by
  rw [mdSet, if_neg]
  simp [h]

theorem csGet_cons_pos (a : String × String) (t : Headers) (k : String) (h : a.1 = k) :
    csGet (a :: t) k = some a.2 := by
  rw [csGet, List.find?_cons_of_pos _ (by simp [h])]
  rfl

theorem csGet_cons_neg (a : String × String) (t : Headers) (k : String) (h : ¬ a.1 = k) :
    csGet (a :: t) k = csGet t k := by
  rw [csGet, List.find?_cons_of_neg _ (by simp [h])]
  rfl

theorem csGet_mdSet_self (d : Headers) (k v : String) :
    csGet (mdSet d k v) k = some v := by
  induction d with
  | nil =>
    rw [mdSet, csGet_cons_pos _ _ _ rfl]
  | cons a t ih =>
    by_cases ha : a.1 = k
    · rw [mdSet_cons_pos _ _ _ _ ha, csGet_cons_pos _ _ _ rfl]
    · rw [mdSet_cons_neg _ _ _ _ ha, csGet_cons_neg _ _ _ ha, ih]

theorem csGet_mdSet_ne (d : Headers) (k v k2 : String) (h : ¬ k2 = k) :
    csGet (mdSet d k v) k2 = csGet d k2 := by
  have h2 : ¬ ((k, v) : String × String).1 = k2 := fun e => h e.symm
  induction d with
  | nil =>
    rw [mdSet, csGet_cons_neg _ _ _ h2]
  | cons a t ih =>
    by_cases ha : a.1 = k
    · rw [mdSet_cons_pos _ _ _ _ ha, csGet_cons_neg _ _ _ h2,
        csGet_cons_neg _ _ _ (by rw [ha]; exact fun e => h e.symm)]
      have himp : ∀ b : String × String, (b.1 == k2) = true → (b.1 != k) = true := by
        intro b hb
        have hb2 : b.1 = k2 := by simpa using hb
        simpa [hb2] using h
      rw [csGet, csGet, find?_filter_of_imp _ _ _ himp]
    · by_cases hak : a.1 = k2
      · rw [mdSet_cons_neg _ _ _ _ ha, csGet_cons_pos _ _ _ hak, csGet_cons_pos _ _ _ hak]
      · rw [mdSet_cons_neg _ _ _ _ ha, csGet_cons_neg _ _ _ hak, csGet_cons_neg _ _ _ hak, ih]

theorem mem_mdSet_self (d : Headers) (k v : String) : (k, v) ∈ mdSet d k v := by
  induction d with
  | nil =>
    rw [mdSet]
    exact List.mem_cons_self _ _
  | cons a t ih =>
    by_cases ha : a.1 = k
    · rw [mdSet_cons_pos _ _ _ _ ha]
      exact List.mem_cons_self _ _
    · rw [mdSet_cons_neg _ _ _ _ ha]
      exact List.mem_cons_of_mem _ ih

theorem mem_of_mem_mdSet (d : Headers) (k v : String) (kv2 : String × String)
    (h : kv2 ∈ mdSet d k v) : kv2 ∈ d ∨ kv2 = (k, v) := by
  induction d with
  | nil =>
    rw [mdSet] at h
    right
    simpa using h
  | cons a t ih =>
    by_cases ha : a.1 = k
    · rw [mdSet_cons_pos _ _ _ _ ha] at h
      rcases List.mem_cons.mp h with h1 | h1
      · right; exact h1
      · left; exact List.mem_cons_of_mem _ (List.mem_of_mem_filter h1)
    · rw [mdSet_cons_neg _ _ _ _ ha] at h
      rcases List.mem_cons.mp h with h1 | h1
      · left; exact h1 ▸ List.mem_cons_self _ _
      · rcases ih h1 with h2 | h2
        · left; exact List.mem_cons_of_mem _ h2
        · right; exact h2

theorem mem_mdSet_of_ne (k v : String) (kv2 : String × String) (hne : ¬ kv2.1 = k) :
    ∀ d : Headers, kv2 ∈ d → kv2 ∈ mdSet d k v := by
  intro d
  induction d with
  | nil =>
    intro h2
    exact absurd h2 (List.not_mem_nil _)
  | cons a t ih =>
    intro h2
    by_cases ha : a.1 = k
    · rw [mdSet_cons_pos _ _ _ _ ha]
      rcases List.mem_cons.mp h2 with h3 | h3
      · exact absurd (by rw [h3]; exact ha) hne
      · exact List.mem_cons_of_mem _ (List.mem_filter.mpr ⟨h3, by simp [hne]⟩)
    · rw [mdSet_cons_neg _ _ _ _ ha]
      rcases List.mem_cons.mp h2 with h3 | h3
      · exact h3 ▸ List.mem_cons_self _ _
      · exact List.mem_cons_of_mem _ (ih h3)

theorem mem_filterTE (h : Headers) (kv : String × String) (hm : kv ∈ filterTE h) :
    kv ∈ h ∧ (lowerStr kv.1 != "transfer-encoding") = true := by
  rw [filterTE] at hm
  exact List.mem_filter.mp hm

theorem pyDictInsert_cons_pos (a : String × String) (t : Headers) (k v : String)
    (h : a.1 = k) : pyDictInsert (a :: t) k v = (a.1, v) :: t := by
  rw [pyDictInsert, if_pos]
  simp [h]

theorem pyDictInsert_cons_neg (a : String × String) (t : Headers) (k v : String)
    (h : ¬ a.1 = k) : pyDictInsert (a :: t) k v = a :: pyDictInsert t k v := by
  rw [pyDictInsert, if_neg]
  simp [h]

theorem pyDictInsert_of_absent (k v : String) :
    ∀ d : Headers, (∀ kv ∈ d, ¬ kv.1 = k) → pyDictInsert d k v = d ++ [(k, v)] := by
  intro d
  induction d with
  | nil =>
    intro _
    rfl
  | cons a t ih =>
    intro h
    rw [pyDictInsert_cons_neg _ _ _ _ (h a (List.mem_cons_self _ _)),
      ih (fun kv hkv => h kv (List.mem_cons_of_mem _ hkv)), List.cons_append]

theorem keys_pyDictInsert (k v : String) (p : String → Bool) (hk : p k = true) :
    ∀ d : Headers, (∀ kv ∈ d, p kv.1 = true) → ∀ kv2 ∈ pyDictInsert d k v, p kv2.1 = true := by
  intro d
  induction d with
  | nil =>
    intro _ kv2 h2
    rw [pyDictInsert] at h2
    have he : kv2 = (k, v) := by simpa using h2
    rw [he]
    exact hk
  | cons a t ih =>
    intro hd kv2 h2
    by_cases ha : a.1 = k
    · rw [pyDictInsert_cons_pos _ _ _ _ ha] at h2
      rcases List.mem_cons.mp h2 with h3 | h3
      · rw [h3]
        exact hd a (List.mem_cons_self _ _)
      · exact hd kv2 (List.mem_cons_of_mem _ h3)
    · rw [pyDictInsert_cons_neg _ _ _ _ ha] at h2
      rcases List.mem_cons.mp h2 with h3 | h3
      · rw [h3]
        exact hd a (List.mem_cons_self _ _)
      · exact ih (fun kv hkv => hd kv (List.mem_cons_of_mem _ hkv)) kv2 h3

theorem keys_pyDictOfList (p : String → Bool) :
    ∀ l : Headers, (∀ kv ∈ l, p kv.1 = true) → ∀ kv2 ∈ pyDictOfList l, p kv2.1 = true := by
  have aux : ∀ l d : Headers, (∀ kv ∈ d, p kv.1 = true) → (∀ kv ∈ l, p kv.1 = true) →
      ∀ kv2 ∈ l.foldl (fun acc kv => pyDictInsert acc kv.1 kv.2) d, p kv2.1 = true := by
    intro l
    induction l with
    | nil =>
      intro d hd _ kv2 h2
      exact hd kv2 h2
    | cons a t ih =>
      intro d hd hl kv2 h2
      rw [List.foldl_cons] at h2
      exact ih (pyDictInsert d a.1 a.2)
        (keys_pyDictInsert a.1 a.2 p (hl a (List.mem_cons_self _ _)) d hd)
        (fun kv hkv => hl kv (List.mem_cons_of_mem _ hkv)) kv2 h2
  intro l hl
  exact aux l [] (fun kv h => absurd h (List.not_mem_nil _)) hl

theorem csGet_pyDictInsert_self (d : Headers) (k v : String) :
    csGet (pyDictInsert d k v) k = some v := by
  induction d with
  | nil =>
    rw [pyDictInsert, csGet_cons_pos _ _ _ rfl]
  | cons a t ih =>
    by_cases ha : a.1 = k
    · rw [pyDictInsert_cons_pos _ _ _ _ ha, csGet_cons_pos (a.1, v) t k ha]
    · rw [pyDictInsert_cons_neg _ _ _ _ ha, csGet_cons_neg _ _ _ ha, ih]

theorem csGet_pyDictInsert_ne (d : Headers) (k v k2 : String) (h : ¬ k2 = k) :
    csGet (pyDictInsert d k v) k2 = csGet d k2 := by
  induction d with
  | nil =>
    rw [pyDictInsert, csGet_cons_neg _ _ _ (fun e => h e.symm)]
  | cons a t ih =>
    by_cases ha : a.1 = k
    · have hne : ¬ a.1 = k2 := fun e => h (by rw [← e, ha])
      rw [pyDictInsert_cons_pos _ _ _ _ ha, csGet_cons_neg (a.1, v) t k2 hne,
        csGet_cons_neg _ _ _ hne]
    · by_cases hak : a.1 = k2
      · rw [pyDictInsert_cons_neg _ _ _ _ ha, csGet_cons_pos _ _ _ hak, csGet_cons_pos _ _ _ hak]
      · rw [pyDictInsert_cons_neg _ _ _ _ ha, csGet_cons_neg _ _ _ hak,
          csGet_cons_neg _ _ _ hak, ih]

theorem csGet_foldl_pyDictInsert (k : String) :
    ∀ l d : Headers,
      csGet (l.foldl (fun acc kv => pyDictInsert acc kv.1 kv.2) d) k
        = (((l.filter (fun kv => kv.1 == k)).getLast?).map (fun kv => kv.2)).or (csGet d k) := by
  intro l
  induction l with
  | nil =>
    intro d
    simp [Option.or]
  | cons a t ih =>
    intro d
    rw [List.foldl_cons, ih]
    by_cases ha : a.1 = k
    · rw [List.filter_cons_of_pos (by simp [ha])]
      rcases hft : t.filter (fun kv => kv.1 == k) with _ | ⟨b, bs⟩
      · have hins : csGet (pyDictInsert d a.1 a.2) k = some a.2 := by
          rw [← ha]
          exact csGet_pyDictInsert_self _ _ _
        rw [hft, hins]
        simp [Option.or]
      · obtain ⟨x, hx⟩ : ∃ x, (b :: bs).getLast? = some x :=
          ⟨_, List.getLast?_eq_getLast_of_ne_nil (by simp)⟩
        rw [hft, List.getLast?_cons_cons, hx]
        simp [Option.or]
    · rw [List.filter_cons_of_neg (by simp [ha]),
        csGet_pyDictInsert_ne _ _ _ _ (fun e => ha e.symm)]

theorem closesPeer_append (a b : List RelayAction) :
    closesPeer (a ++ b) = (closesPeer a || closesPeer b) := by
  induction a with
  | nil => simp [closesPeer]
  | cons x t ih =>
    cases x with
    | sendStr s => simpa [closesPeer] using ih
    | sendBytes s => simpa [closesPeer] using ih
    | closePeer => simp [closesPeer]

/-! ### Claim theorems -/

/-- C1 (code_bug evidence): in `handle_websocket` a send failure in one
forwarding loop is NOT contained.  The loops run under `asyncio.gather`
with the default `return_exceptions=False`, so the raised send error
propagates out of the gather and aborts the whole relay, instead of
terminating only the failing leg and closing the peer socket.  Concretely:
one TEXT frame arrives from upstream and the send towards the client
raises; the relay itself raises. -/
theorem handle_websocket_send_failure_aborts_relay :
    handle_websocket [{ type := WSMsgType.text, data := "a" }] []
      (fun _ => true) (fun _ => false) = Except.error () := rfl

/-- C2 (counterexample): an upstream failure of class `asyncio.TimeoutError`
(expiry of the overall `ClientTimeout(total=...)` budget) is not an
`aiohttp.ClientError`, so the `except ClientError` arm of `handle_request`
does not map it to the synthesized 502 response; it propagates out of the
forwarder unchanged. -/
theorem handle_request_total_timeout_propagates :
    handle_request (Except.error UpstreamFailure.totalTimeout)
      = Except.error UpstreamFailure.totalTimeout := rfl

/-- C2 (amended): every upstream transport failure raised as an
`aiohttp.ClientError` (connection refused, protocol violation) is mapped by
`handle_request` to the synthesized response with status 502 and plain-text
body "Bad Gateway", with no retry; only the overall-timeout failure class
escapes this mapping. -/
theorem handle_request_client_error_maps_to_502 (e : UpstreamFailure)
    (h : isClientError e = true) :
    handle_request (Except.error e) = Except.ok badGatewayResp ∧
    badGatewayResp.status = 502 ∧ badGatewayResp.body = strBytes "Bad Gateway" := by
  refine ⟨?_, rfl, rfl⟩
  simp [handle_request, h]

/-- Witness for the amended C2 theorem at the connection-refused failure. -/
theorem handle_request_client_error_maps_to_502_witness :
    handle_request (Except.error UpstreamFailure.connectRefused) = Except.ok badGatewayResp ∧
    badGatewayResp.status = 502 ∧ badGatewayResp.body = strBytes "Bad Gateway" :=
  handle_request_client_error_maps_to_502 UpstreamFailure.connectRefused rfl

/-- C4 (code_bug evidence): no execution of a `forward` loop ever closes
the peer socket.  The `elif msg.type == WSMsgType.CLOSE` branch of the loop
body is unreachable, because the aiohttp message iterator raises
`StopAsyncIteration` on CLOSE / CLOSING / CLOSED before the message reaches
the loop body.  Hence a close frame from one side closes only the reading
socket (aiohttp autoclose); the peer socket is never closed by the loop and
the relay cannot complete until the peer side terminates on its own. -/
theorem forwardLoop_never_closes_peer (msgs : List WSMessage) :
    closesPeer (forwardLoop msgs) = false := by
  induction msgs with
  | nil => rfl
  | cons m rest ih =>
    by_cases hs : stopsIteration m.type = true
    · rw [forwardLoop, if_pos hs]
      rfl
    · have hs2 : stopsIteration m.type = false := by simpa using hs
      rw [forwardLoop, if_neg (by simp [hs2]), closesPeer_append, ih, Bool.or_false]
      cases ht : m.type with
      | text => simp [bodyActions, ht, closesPeer]
      | binary => simp [bodyActions, ht, closesPeer]
      | ping => simp [bodyActions, ht, closesPeer]
      | pong => simp [bodyActions, ht, closesPeer]
      | close =>
        rw [ht] at hs2
        exact absurd hs2 (by decide)
      | closing =>
        rw [ht] at hs2
        exact absurd hs2 (by decide)
      | closed =>
        rw [ht] at hs2
        exact absurd hs2 (by decide)
      | error => simp [bodyActions, ht, closesPeer]

/-- C10: a frame of type PING, PONG or ERROR that reaches a forwarding
loop falls through the if/elif chain of the loop body: nothing is sent to
the peer socket and the loop continues with the next frame.  (These are
the only message types other than TEXT and BINARY the loop body can
observe: CLOSE, CLOSING and CLOSED end the iteration before reaching the
body.) -/
theorem forwardLoop_drops_other_frames (t : WSMsgType) (d : String) (rest : List WSMessage)
    (h : t = WSMsgType.ping ∨ t = WSMsgType.pong ∨ t = WSMsgType.error) :
    forwardLoop ({ type := t, data := d } :: rest) = forwardLoop rest ∧
    bodyActions { type := t, data := d } = [] := by
  rcases h with rfl | rfl | rfl <;>
    exact ⟨by rw [forwardLoop, if_neg (by simp [stopsIteration])]; simp [bodyActions], rfl⟩

/-- Witness for C10 at a PING frame followed by a TEXT frame. -/
theorem forwardLoop_drops_other_frames_witness :
    forwardLoop [{ type := WSMsgType.ping, data := "p" }, { type := WSMsgType.text, data := "x" }]
      = forwardLoop [{ type := WSMsgType.text, data := "x" }] ∧
    bodyActions { type := WSMsgType.ping, data := "p" } = [] :=
  forwardLoop_drops_other_frames WSMsgType.ping "p"
    [{ type := WSMsgType.text, data := "x" }] (Or.inl rfl)

/-- C8: the resolved target URL is the configured base, one slash, the
path, and the raw query string after a question mark exactly when the query
is non-empty; an empty path and query yield a trailing-slash URL. -/
theorem construct_target_url_appends_path_and_query (base p q : String) :
    (q = "" → construct_target_url base p q = base ++ "/" ++ p) ∧
    (¬ q = "" → construct_target_url base p q = base ++ "/" ++ p ++ "?" ++ q) ∧
    construct_target_url base "" "" = base ++ "/" := by
  refine ⟨?_, ?_, ?_⟩
  · intro hq
    simp [construct_target_url, hq]
  · intro hq
    simp [construct_target_url, hq]
  · simp [construct_target_url]

/-- Witness for C8 with a non-empty query and with an empty path and
query. -/
theorem construct_target_url_appends_path_and_query_witness :
    construct_target_url "http://u" "x" "a=1" = "http://u" ++ "/" ++ "x" ++ "?" ++ "a=1" ∧
    construct_target_url "http://u" "" "" = "http://u" ++ "/" :=
  ⟨(construct_target_url_appends_path_and_query "http://u" "x" "a=1").2.1 (by decide),
   (construct_target_url_appends_path_and_query "http://u" "" "").2.2⟩

/-- C3 (counterexample): the membership guard of `build_response` checks
only the exact title-cased key `Content-Length` in a case-sensitive
`MultiDict`, so an upstream response that carries an explicit
content-length under a lower-cased key still triggers injection: with
upstream headers [("content-length", "999")] and a three-byte body, the
client headers come out as [("content-length", "3"), ("Content-Length",
"3")] — an injection happened although a content-length header (under a
non-title casing) was present, and the original value 999 was even
overwritten. -/
theorem build_response_injects_despite_lowercase_content_length :
    (build_response ⟨200, [("content-length", "999")], [97, 98, 99]⟩).headers
      = [("content-length", "3"), ("Content-Length", "3")] := by decide

/-- C3 (amended): a Content-Length header is injected if and only if the
Transfer-Encoding-filtered upstream headers carry no entry whose key is
exactly the title-cased string `Content-Length` (a differently-cased
content-length key does not suppress injection) and the upstream response
is not chunked; when injected, the value stored under both the
`Content-Length` and the `content-length` key equals the byte length of
the fully buffered body, and otherwise the headers pass through the
filter unchanged. -/
theorem build_response_content_length_injection (r : UpstreamResp) :
    (hasKeyCS (filterTE r.headers) "Content-Length" = false ∧ is_response_chunked r = false →
      csGet (build_response r).headers "Content-Length" = some (toString r.body.length) ∧
      csGet (build_response r).headers "content-length" = some (toString r.body.length)) ∧
    (hasKeyCS (filterTE r.headers) "Content-Length" = true ∨ is_response_chunked r = true →
      (build_response r).headers = filterTE r.headers) := by
  constructor
  · intro hc
    have hb : (build_response r).headers
        = mdSet (mdSet (filterTE r.headers) "Content-Length" (clValue r)) "content-length"
          (clValue r) := by
      simp [build_response, hc.1, hc.2]
    rw [hb]
    constructor
    · rw [csGet_mdSet_ne _ _ _ _ (by decide)]
      exact csGet_mdSet_self _ _ _
    · exact csGet_mdSet_self _ _ _
  · intro hc
    have hneg : ¬ (hasKeyCS (filterTE r.headers) "Content-Length" = false ∧
        is_response_chunked r = false) := by
      rcases hc with hc | hc <;> simp [hc]
    simp [build_response, hneg]

/-- Witness for the amended C3 theorem: an upstream response without any
content-length and without chunked transfer-encoding gets both injected
keys with the body byte length. -/
theorem build_response_content_length_injection_witness :
    csGet (build_response ⟨200, [("Server", "x")], [104, 105]⟩).headers "Content-Length"
      = some (toString ([104, 105] : List Nat).length) ∧
    csGet (build_response ⟨200, [("Server", "x")], [104, 105]⟩).headers "content-length"
      = some (toString ([104, 105] : List Nat).length) :=
  (build_response_content_length_injection ⟨200, [("Server", "x")], [104, 105]⟩).1
    ⟨by decide, by decide⟩

/-- C5: after `prepare_headers`, the only entry of the outbound mapping
whose name is `host` up to case is the title-cased `Host` entry holding the
netloc of the configured base URL, whatever Host headers (under any casing)
the client sent. -/
theorem prepare_headers_forces_host_header (base : String) (reqHeaders : Headers) :
    (prepare_headers base reqHeaders).filter (fun kv => lowerStr kv.1 == "host")
      = [("Host", urlsplitNetloc base)] := by
  rw [prepare_headers]
  have hkeys : ∀ kv2 ∈ pyDictOfList (reqHeaders.filter (fun kv => lowerStr kv.1 != "host")),
      (lowerStr kv2.1 != "host") = true :=
    keys_pyDictOfList (fun s => lowerStr s != "host") _
      (fun kv hkv => (List.mem_filter.mp hkv).2)
  have habs : ∀ kv2 ∈ pyDictOfList (reqHeaders.filter (fun kv => lowerStr kv.1 != "host")),
      ¬ kv2.1 = "Host" := by
    intro kv2 h2 he
    have hlow := hkeys kv2 h2
    rw [he] at hlow
    exact absurd hlow (by decide)
  rw [pyDictInsert_of_absent _ _ _ habs, List.filter_append]
  have h1 : (pyDictOfList (reqHeaders.filter (fun kv => lowerStr kv.1 != "host"))).filter
      (fun kv => lowerStr kv.1 == "host") = [] := by
    rw [List.filter_eq_nil_iff]
    intro kv2 h2
    have hlow := hkeys kv2 h2
    simpa using hlow
  rw [h1, List.nil_append]
  rfl

/-- C6 (counterexample): the outbound mapping built by `prepare_headers` is
a plain `dict`, so two client headers under the same exact name are NOT
both copied: the entry ("Accept", "a") has disappeared from the outbound
mapping, which holds only the later value "b". -/
theorem prepare_headers_drops_duplicate_header_entries :
    prepare_headers "http://u" [("Accept", "a"), ("Accept", "b")]
        = [("Accept", "b"), ("Host", "u")] ∧
    ((prepare_headers "http://u" [("Accept", "a"), ("Accept", "b")]).contains
        ("Accept", "a")) = false := by
  constructor
  · decide
  · decide

/-- C6 (amended): for every header name other than `host` (case-insensitive),
the outbound mapping holds the value of the LAST client header with that
exact name — duplicate entries under one exact name collapse to a single
entry instead of all being copied. -/
theorem prepare_headers_copies_last_nonhost_value (base : String) (reqHeaders : Headers)
    (k : String) (hk : (lowerStr k == "host") = false) :
    csGet (prepare_headers base reqHeaders) k
      = ((reqHeaders.filter (fun kv => kv.1 == k)).getLast?).map (fun kv => kv.2) := by
  rw [prepare_headers]
  have hkH : ¬ k = "Host" := by
    intro e
    rw [e] at hk
    exact absurd hk (by decide)
  rw [csGet_pyDictInsert_ne _ _ _ _ hkH, pyDictOfList, csGet_foldl_pyDictInsert]
  have hff : (reqHeaders.filter (fun kv => lowerStr kv.1 != "host")).filter
      (fun kv => kv.1 == k) = reqHeaders.filter (fun kv => kv.1 == k) := by
    rw [List.filter_filter]
    apply List.filter_congr
    intro kv _
    by_cases hkv : kv.1 = k
    · simp [hkv, bne, hk]
    · simp [hkv]
  rw [hff]
  cases hlast : ((reqHeaders.filter (fun kv => kv.1 == k)).getLast?).map (fun kv => kv.2) with
  | none => simp [csGet, Option.or]
  | some x => simp [csGet, Option.or]

/-- Witness for the amended C6 theorem at two duplicate Accept headers. -/
theorem prepare_headers_copies_last_nonhost_value_witness :
    csGet (prepare_headers "http://u" [("Accept", "a"), ("Accept", "b")]) "Accept"
      = (([("Accept", "a"), ("Accept", "b")].filter
          (fun kv => kv.1 == "Accept")).getLast?).map (fun kv => kv.2) :=
  prepare_headers_copies_last_nonhost_value "http://u"
    [("Accept", "a"), ("Accept", "b")] "Accept" (by decide)

/-- C7: every response the HTTP forwarding path hands to the client — the
rebuilt upstream response as well as the synthesized 502 — carries no
header named `Transfer-Encoding` under any casing. -/
theorem handle_request_no_transfer_encoding (outcome : Except UpstreamFailure UpstreamResp)
    (r : ClientResp) (h : handle_request outcome = Except.ok r) :
    r.headers.all (fun kv => lowerStr kv.1 != "transfer-encoding") = true := by
  rw [List.all_eq_true]
  intro kv hkv
  cases outcome with
  | ok u =>
    have hr : r = build_response u := by
      have := h
      simp only [handle_request] at this
      exact (Except.ok.injEq _ _).mp this.symm
    rw [hr] at hkv
    have hkv2 : kv ∈ (build_response u).headers := hkv
    by_cases hc : hasKeyCS (filterTE u.headers) "Content-Length" = false ∧
        is_response_chunked u = false
    · rw [show (build_response u).headers
          = mdSet (mdSet (filterTE u.headers) "Content-Length" (clValue u)) "content-length"
            (clValue u) from by simp [build_response, hc.1, hc.2]] at hkv2
      rcases mem_of_mem_mdSet _ _ _ _ hkv2 with h2 | h2
      · rcases mem_of_mem_mdSet _ _ _ _ h2 with h3 | h3
        · exact (mem_filterTE _ _ h3).2
        · rw [h3]
          show (lowerStr "Content-Length" != "transfer-encoding") = true
          decide
      · rw [h2]
        show (lowerStr "content-length" != "transfer-encoding") = true
        decide
    · rw [show (build_response u).headers = filterTE u.headers from by
          simp [build_response, hc]] at hkv2
      exact (mem_filterTE _ _ hkv2).2
  | error e =>
    cases e with
    | connectRefused =>
      have hr : r = badGatewayResp := by
        have := h
        simp only [handle_request, isClientError, if_true] at this
        exact (Except.ok.injEq _ _).mp this.symm
      rw [hr] at hkv
      have hkv2 : kv = ("Content-Type", "text/plain; charset=utf-8") := by
        simpa [badGatewayResp] using hkv
      rw [hkv2]
      decide
    | totalTimeout => simp [handle_request, isClientError] at h
    | protocolError =>
      have hr : r = badGatewayResp := by
        have := h
        simp only [handle_request, isClientError, if_true] at this
        exact (Except.ok.injEq _ _).mp this.symm
      rw [hr] at hkv
      have hkv2 : kv = ("Content-Type", "text/plain; charset=utf-8") := by
        simpa [badGatewayResp] using hkv
      rw [hkv2]
      decide

/-- Witness for C7 at the synthesized 502 response of a refused
connection. -/
theorem handle_request_no_transfer_encoding_witness :
    badGatewayResp.headers.all (fun kv => lowerStr kv.1 != "transfer-encoding") = true :=
  handle_request_no_transfer_encoding (Except.error UpstreamFailure.connectRefused)
    badGatewayResp rfl

/-- C9: whenever the Content-Length injection of `build_response` fires,
the resulting mapping contains the computed body length under BOTH the
title-cased key `Content-Length` and the lower-cased key `content-length`;
since the mapping is case-sensitive, these are two distinct entries with
the same value. -/
theorem build_response_sets_both_content_length_casings (r : UpstreamResp)
    (hcl : hasKeyCS (filterTE r.headers) "Content-Length" = false)
    (hch : is_response_chunked r = false) :
    ("Content-Length", toString r.body.length) ∈ (build_response r).headers ∧
    ("content-length", toString r.body.length) ∈ (build_response r).headers := by
  have hb : (build_response r).headers
      = mdSet (mdSet (filterTE r.headers) "Content-Length" (clValue r)) "content-length"
        (clValue r) := by
    simp [build_response, hcl, hch]
  rw [hb]
  constructor
  · exact mem_mdSet_of_ne "content-length" (clValue r) _
      (show ¬ ("Content-Length" : String) = "content-length" by decide) _
      (mem_mdSet_self _ _ _)
  · exact mem_mdSet_self _ _ _

/-- Witness for C9 at a one-byte body with no upstream headers. -/
theorem build_response_sets_both_content_length_casings_witness :
    ("Content-Length", toString ([104] : List Nat).length)
      ∈ (build_response ⟨200, [], [104]⟩).headers ∧
    ("content-length", toString ([104] : List Nat).length)
      ∈ (build_response ⟨200, [], [104]⟩).headers :=
  build_response_sets_both_content_length_casings ⟨200, [], [104]⟩ (by decide) (by decide)

end ShadowProxy
